import Mathlib

/-!
Shallow embedding of `src/app.py`, a Flask REST API with two in-memory
stores (`users` and `tasks`) and CRUD handlers.  JSON request bodies are
modelled as association lists of string keys to JSON values (`JObj`);
`none` stands for a missing or non-JSON body.  Python truthiness of a
parsed body (`not request.json`) is `bodyTruthy`.  Handlers are pure
functions from (path parameters, body, store state) to (HTTP status,
new store state, response payload).
-/

namespace RestLab

/-- A JSON value as it can appear in a request payload of this app:
a string, an integer, or a boolean. -/
inductive JVal where
  | jstr (s : String)
  | jint (n : Int)
  | jbool (b : Bool)
  deriving Repr, DecidableEq

/-- A parsed JSON object body: keys mapped to values (keys assumed
distinct, as in a Python dict). -/
abbrev JObj := List (String × JVal)

/-- Python `obj.get(k)` / `obj[k]`: the value at key `k`, if present. -/
def getKey (j : JObj) (k : String) : Option JVal :=
  (j.find? (fun p => p.1 == k)).map (fun p => p.2)

/-- Python `k in obj`. -/
def hasKey (j : JObj) (k : String) : Bool :=
  (getKey j k).isSome

/-- Python truthiness of `request.json`: `None` and the empty dict are
falsy, every non-empty dict is truthy. -/
def bodyTruthy : Option JObj → Bool
  | none => false
  | some j => !j.isEmpty

/-- Python `==` between a stored integer id and a JSON value: ints
compare numerically, booleans compare as 0/1 (Python `True == 1`),
strings never equal an int. -/
def pyEqIntJ (i : Int) (v : JVal) : Bool :=
  match v with
  | .jint n => i == n
  | .jbool b => i == (if b then 1 else 0)
  | .jstr _ => false

/-- A record of the `users` list in `app.py`.  The `id` is always an
integer assigned by the app; `name` and `age` are whatever JSON values
the client supplied (defaults: `age = 0`). -/
structure User where
  id : Int
  name : JVal
  age : JVal
  deriving Repr, DecidableEq

/-- A record of the `tasks` list in `app.py`.  The `id` is assigned by
the app; the other fields come from the payload (defaults:
`description = ""`, `completed = False`). -/
structure Task where
  id : Int
  title : JVal
  description : JVal
  user_id : JVal
  completed : JVal
  deriving Repr, DecidableEq

/-- The seeded `users` list of `app.py`. -/
def seedUsers : List User :=
  [{ id := 1, name := .jstr "Alice", age := .jint 25 },
   { id := 2, name := .jstr "Bob", age := .jint 30 }]

/-- The seeded `tasks` list of `app.py`. -/
def seedTasks : List Task :=
  [{ id := 1, title := .jstr "Learn REST", description := .jstr "Study REST principles",
     user_id := .jint 1, completed := .jbool true },
   { id := 2, title := .jstr "Build API", description := .jstr "Complete the assigment",
     user_id := .jint 2, completed := .jbool false }]

/-- `user_exists(user_id)`: `any(user['id'] == user_id for user in users)`.
The argument may be any JSON value (it is taken from a payload in
`create_task` / `update_task`, and is an int path parameter in
`get_user_tasks`). -/
def user_exists (users : List User) (v : JVal) : Bool :=
  users.any (fun u => pyEqIntJ u.id v)

/-- `users[-1]['id'] + 1 if users else 1`. -/
def nextUserId (users : List User) : Int :=
  match users.getLast? with
  | some u => u.id + 1
  | none => 1

/-- `tasks[-1]['id'] + 1 if tasks else 1`. -/
def nextTaskId (tasks : List Task) : Int :=
  match tasks.getLast? with
  | some t => t.id + 1
  | none => 1

/-- Replace the first element satisfying `p` by its image under `f`
(Python mutates the first dict found by `next(...)` in place). -/
def replaceFirst (p : α → Bool) (f : α → α) : List α → List α
  | [] => []
  | x :: xs => if p x then f x :: xs else x :: replaceFirst p f xs

/-- `POST /users` (`create_user`): 400 if the body is falsy or has no
`name` key; otherwise append a new user with the next id, the given
name, and `age` defaulting to 0, and return it with 201. -/
def create_user (body : Option JObj) (users : List User) :
    Nat × List User × Option User :=
  match body with
  | none => (400, users, none)
  | some j =>
    if j.isEmpty || !(hasKey j "name") then (400, users, none)
    else
      let new_user : User :=
        { id := nextUserId users,
          name := (getKey j "name").getD (.jstr ""),
          age := (getKey j "age").getD (.jint 0) }
      (201, users ++ [new_user], some new_user)

/-- The field overwrite performed by `update_user`: supplied fields
replace the old values, omitted fields are kept (`request.json.get(k,
user[k])`); the id is untouched. -/
def applyUserUpdate (j : JObj) (u : User) : User :=
  { id := u.id,
    name := (getKey j "name").getD u.name,
    age := (getKey j "age").getD u.age }

/-- `PUT /users/{id}` (`update_user`): 404 if no user with that id,
400 if the body is falsy, otherwise overwrite the supplied fields of
the first matching user in place and return it with 200. -/
def update_user (user_id : Int) (body : Option JObj) (users : List User) :
    Nat × List User × Option User :=
  match users.find? (fun u => u.id == user_id) with
  | none => (404, users, none)
  | some u =>
    if !bodyTruthy body then (400, users, none)
    else
      (200, replaceFirst (fun v => v.id == user_id) (applyUserUpdate (body.getD [])) users,
        some (applyUserUpdate (body.getD []) u))

/-- `DELETE /users/{id}` (`delete_user`): rebuild the list without the
matching id; always 204 with empty body. -/
def delete_user (user_id : Int) (users : List User) : Nat × List User :=
  (204, users.filter (fun u => u.id != user_id))

/-- `POST /tasks` (`create_task`): 400 if the body is falsy, `title`
or `user_id` is missing, or `user_exists` fails on the supplied
`user_id`; otherwise append a new task with the next id and return it
with 201. -/
def create_task (body : Option JObj) (users : List User) (tasks : List Task) :
    Nat × List Task × Option Task :=
  match body with
  | none => (400, tasks, none)
  | some j =>
    if j.isEmpty then (400, tasks, none)
    else if !(hasKey j "title") then (400, tasks, none)
    else if !(hasKey j "user_id") then (400, tasks, none)
    else if !(user_exists users ((getKey j "user_id").getD (.jint 0))) then (400, tasks, none)
    else
      let new_task : Task :=
        { id := nextTaskId tasks,
          title := (getKey j "title").getD (.jstr ""),
          description := (getKey j "description").getD (.jstr ""),
          user_id := (getKey j "user_id").getD (.jint 0),
          completed := (getKey j "completed").getD (.jbool false) }
      (201, tasks ++ [new_task], some new_task)

/-- The field overwrite performed by `update_task`: supplied fields
replace the old values, omitted fields are kept; the id is untouched. -/
def applyTaskUpdate (j : JObj) (t : Task) : Task :=
  { id := t.id,
    title := (getKey j "title").getD t.title,
    description := (getKey j "description").getD t.description,
    user_id := (getKey j "user_id").getD t.user_id,
    completed := (getKey j "completed").getD t.completed }

/-- `PUT /tasks/{id}` (`update_task`): 404 if no task with that id,
400 if the body is falsy, 400 if a supplied `user_id` fails
`user_exists`; otherwise overwrite the supplied fields of the first
matching task in place and return it with 200. -/
def update_task (task_id : Int) (body : Option JObj) (users : List User)
    (tasks : List Task) : Nat × List Task × Option Task :=
  match tasks.find? (fun t => t.id == task_id) with
  | none => (404, tasks, none)
  | some t =>
    if !bodyTruthy body then (400, tasks, none)
    else if (hasKey (body.getD []) "user_id") &&
        !(user_exists users ((getKey (body.getD []) "user_id").getD (.jint 0)))
    then (400, tasks, none)
    else
      (200, replaceFirst (fun v => v.id == task_id) (applyTaskUpdate (body.getD [])) tasks,
        some (applyTaskUpdate (body.getD []) t))

/-- `DELETE /tasks/{id}` (`delete_task`): 404 if no task with that id;
otherwise rebuild the list without the matching id and return 204. -/
def delete_task (task_id : Int) (tasks : List Task) : Nat × List Task :=
  match tasks.find? (fun t => t.id == task_id) with
  | none => (404, tasks)
  | some _ => (204, tasks.filter (fun t => t.id != task_id))

/-- `GET /users/{id}/tasks` (`get_user_tasks`): 404 if `user_exists`
fails on the path parameter; otherwise 200 with the tasks whose
`user_id` equals it (Python `==` against an int). -/
def get_user_tasks (user_id : Int) (users : List User) (tasks : List Task) :
    Nat × Option (List Task) :=
  if !(user_exists users (.jint user_id)) then (404, none)
  else (200, some (tasks.filter (fun t => pyEqIntJ user_id t.user_id)))

/-- The whole mutable state of the app: the two global lists. -/
structure AppState where
  users : List User
  tasks : List Task
  deriving Repr, DecidableEq

/-- The state the app starts in. -/
def initState : AppState := { users := seedUsers, tasks := seedTasks }

/-- One mutating HTTP request (the read-only GET handlers do not change
state and are omitted from traces). -/
inductive Op where
  | createUser (body : Option JObj)
  | updateUser (id : Int) (body : Option JObj)
  | deleteUser (id : Int)
  | createTask (body : Option JObj)
  | updateTask (id : Int) (body : Option JObj)
  | deleteTask (id : Int)
  deriving Repr, DecidableEq

/-- The state transition of one request: run the handler and keep its
updated stores. -/
def Op.apply (op : Op) (s : AppState) : AppState :=
  match op with
  | .createUser b => { s with users := (create_user b s.users).2.1 }
  | .updateUser i b => { s with users := (update_user i b s.users).2.1 }
  | .deleteUser i => { s with users := (delete_user i s.users).2 }
  | .createTask b => { s with tasks := (create_task b s.users s.tasks).2.1 }
  | .updateTask i b => { s with tasks := (update_task i b s.users s.tasks).2.1 }
  | .deleteTask i => { s with tasks := (delete_task i s.tasks).2 }

/-- Run a sequence of requests from a given state. -/
def runOps : List Op → AppState → AppState
  | [], s => s
  | op :: ops, s => runOps ops (op.apply s)

/-- The state reached from the seed state by a request sequence. -/
def reachable (ops : List Op) : AppState := runOps ops initState

/-- The user ids handed out by successful `POST /users` requests along
a run (the "previously assigned" ids). -/
def runAssignedUserIds : List Op → AppState → List Int
  | [], _ => []
  | op :: ops, s =>
    (match op with
     | .createUser b =>
       (match (create_user b s.users).2.2 with
        | some u => [u.id]
        | none => [])
     | _ => []) ++ runAssignedUserIds ops (op.apply s)

/-- The user ids assigned by creates along a run from the seed state. -/
def assignedUserIds (ops : List Op) : List Int :=
  runAssignedUserIds ops initState

/-! ### Helper lemmas: id ordering is preserved by every store mutation -/

/-- Abstract form of the "next id" computation, parametrised by the key. -/
def nextIdKey {α : Type} (key : α → Int) (l : List α) : Int :=
  match l.getLast? with
  | some x => key x + 1
  | none => 1

lemma nextUserId_eq_nextIdKey (l : List User) : nextUserId l = nextIdKey User.id l := by
  cases h : l.getLast? <;> simp [nextUserId, nextIdKey, h]

lemma nextTaskId_eq_nextIdKey (l : List Task) : nextTaskId l = nextIdKey Task.id l := by
  cases h : l.getLast? <;> simp [nextTaskId, nextIdKey, h]

/-- In a key-sorted list every key is below the next id to be assigned. -/
lemma key_lt_nextIdKey {α : Type} (key : α → Int) (l : List α)
    (h : l.Pairwise (fun a b => key a < key b)) :
    ∀ a ∈ l, key a < nextIdKey key l := by
  induction l using List.reverseRecOn with
  | nil => intro a ha; cases ha
  | append_singleton l x _ =>
    intro a ha
    have hx : nextIdKey key (l ++ [x]) = key x + 1 := by
      simp [nextIdKey, List.getLast?_concat]
    rw [hx]
    rcases List.mem_append.mp ha with h1 | h2
    · have := (List.pairwise_append.mp h).2.2 a h1 x (List.mem_singleton_self x)
      omega
    · rw [List.mem_singleton.mp h2]; omega

/-- Appending a record carrying the next id keeps the list key-sorted. -/
lemma pairwise_append_nextIdKey {α : Type} (key : α → Int) (l : List α) (x : α)
    (h : l.Pairwise (fun a b => key a < key b)) (hx : key x = nextIdKey key l) :
    (l ++ [x]).Pairwise (fun a b => key a < key b) := by
  refine List.pairwise_append.mpr ⟨h, List.pairwise_singleton _ _, ?_⟩
  intro a ha b hb
  rw [List.mem_singleton.mp hb, hx]
  exact key_lt_nextIdKey key l h a ha

/-- Every element of `replaceFirst p f l` has the key of some element of
`l`, provided `f` preserves keys. -/
lemma key_of_mem_replaceFirst {α : Type} (key : α → Int) (p : α → Bool) (f : α → α)
    (hf : ∀ x, key (f x) = key x) :
    ∀ (l : List α), ∀ y ∈ replaceFirst p f l, ∃ z ∈ l, key y = key z := by
  intro l
  induction l with
  | nil => intro y hy; cases hy
  | cons x xs ih =>
    intro y hy
    cases hpx : p x with
    | true =>
      simp only [replaceFirst, hpx, if_true] at hy
      rcases List.mem_cons.mp hy with h1 | h2
      · exact ⟨x, List.mem_cons_self x xs, by rw [h1, hf]⟩
      · exact ⟨y, List.mem_cons_of_mem x h2, rfl⟩
    | false =>
      simp only [replaceFirst, hpx, Bool.false_eq_true, if_false] at hy
      rcases List.mem_cons.mp hy with h1 | h2
      · exact ⟨x, List.mem_cons_self x xs, by rw [h1]⟩
      · obtain ⟨z, hz, he⟩ := ih y h2
        exact ⟨z, List.mem_cons_of_mem x hz, he⟩

/-- Replacing one element by a key-preserving update keeps the list
key-sorted. -/
lemma pairwise_replaceFirst {α : Type} (key : α → Int) (p : α → Bool) (f : α → α)
    (hf : ∀ x, key (f x) = key x) (l : List α)
    (h : l.Pairwise (fun a b => key a < key b)) :
    (replaceFirst p f l).Pairwise (fun a b => key a < key b) := by
  induction l with
  | nil => exact List.Pairwise.nil
  | cons x xs ih =>
    rcases List.pairwise_cons.mp h with ⟨hx, hxs⟩
    cases hpx : p x with
    | true =>
      simp only [replaceFirst, hpx, if_true]
      refine List.pairwise_cons.mpr ⟨?_, hxs⟩
      intro y hy; rw [hf]; exact hx y hy
    | false =>
      simp only [replaceFirst, hpx, Bool.false_eq_true, if_false]
      refine List.pairwise_cons.mpr ⟨?_, ih hxs⟩
      intro y hy
      obtain ⟨z, hz, he⟩ := key_of_mem_replaceFirst key p f hf xs y hy
      rw [he]
      exact hx z hz

/-- The reachability invariant: both stores are strictly increasing in id. -/
def Inv (s : AppState) : Prop :=
  s.users.Pairwise (fun a b => a.id < b.id) ∧
  s.tasks.Pairwise (fun a b => a.id < b.id)

lemma inv_init : Inv initState := by
  constructor <;> decide

lemma users_create_user (b : Option JObj) (users : List User)
    (h : users.Pairwise (fun a b => a.id < b.id)) :
    ((create_user b users).2.1).Pairwise (fun a b => a.id < b.id) := by
  unfold create_user
  split
  · exact h
  · split
    · exact h
    · refine pairwise_append_nextIdKey User.id users _ h ?_
      exact nextUserId_eq_nextIdKey users

lemma users_update_user (i : Int) (b : Option JObj) (users : List User)
    (h : users.Pairwise (fun a b => a.id < b.id)) :
    ((update_user i b users).2.1).Pairwise (fun a b => a.id < b.id) := by
  unfold update_user
  split
  · exact h
  · split
    · exact h
    · exact pairwise_replaceFirst User.id (fun v => v.id == i)
        (applyUserUpdate (b.getD [])) (fun x => rfl) users h

lemma users_delete_user (i : Int) (users : List User)
    (h : users.Pairwise (fun a b => a.id < b.id)) :
    ((delete_user i users).2).Pairwise (fun a b => a.id < b.id) :=
  h.filter _

lemma tasks_create_task (b : Option JObj) (users : List User) (tasks : List Task)
    (h : tasks.Pairwise (fun a b => a.id < b.id)) :
    ((create_task b users tasks).2.1).Pairwise (fun a b => a.id < b.id) := by
  unfold create_task
  split
  · exact h
  · split
    · exact h
    · split
      · exact h
      · split
        · exact h
        · split
          · exact h
          · refine pairwise_append_nextIdKey Task.id tasks _ h ?_
            exact nextTaskId_eq_nextIdKey tasks

lemma tasks_update_task (i : Int) (b : Option JObj) (users : List User) (tasks : List Task)
    (h : tasks.Pairwise (fun a b => a.id < b.id)) :
    ((update_task i b users tasks).2.1).Pairwise (fun a b => a.id < b.id) := by
  unfold update_task
  split
  · exact h
  · split
    · exact h
    · split
      · exact h
      · exact pairwise_replaceFirst Task.id (fun v => v.id == i)
          (applyTaskUpdate (b.getD [])) (fun x => rfl) tasks h

lemma tasks_delete_task (i : Int) (tasks : List Task)
    (h : tasks.Pairwise (fun a b => a.id < b.id)) :
    ((delete_task i tasks).2).Pairwise (fun a b => a.id < b.id) := by
  unfold delete_task
  split
  · exact h
  · exact h.filter _

lemma inv_step (op : Op) (s : AppState) (h : Inv s) : Inv (op.apply s) := by
  obtain ⟨hu, ht⟩ := h
  cases op with
  | createUser b => exact ⟨users_create_user b s.users hu, ht⟩
  | updateUser i b => exact ⟨users_update_user i b s.users hu, ht⟩
  | deleteUser i => exact ⟨users_delete_user i s.users hu, ht⟩
  | createTask b => exact ⟨hu, tasks_create_task b s.users s.tasks ht⟩
  | updateTask i b => exact ⟨hu, tasks_update_task i b s.users s.tasks ht⟩
  | deleteTask i => exact ⟨hu, tasks_delete_task i s.tasks ht⟩

lemma inv_runOps (ops : List Op) : ∀ s : AppState, Inv s → Inv (runOps ops s) := by
  induction ops with
  | nil => intro s h; exact h
  | cons op ops ih => intro s h; exact ih _ (inv_step op s h)

/-- Every state reachable from the seed state has both stores strictly
increasing in id. -/
lemma inv_reachable (ops : List Op) : Inv (reachable ops) :=
  inv_runOps ops initState inv_init

/-! ### Claim theorems -/

/-- Claim C9: in every state reachable from the seed state by any sequence of
create, update, and delete operations, User ids are pairwise distinct within
the User Store and Task ids are pairwise distinct within the Task Store. -/
theorem C9_reachable_ids_distinct (ops : List Op) :
    (reachable ops).users.Pairwise (fun a b => a.id ≠ b.id) ∧
    (reachable ops).tasks.Pairwise (fun a b => a.id ≠ b.id) := by
  obtain ⟨hu, ht⟩ := inv_reachable ops
  exact ⟨hu.imp (fun hlt => ne_of_lt hlt), ht.imp (fun hlt => ne_of_lt hlt)⟩

/-- Instance of C9 on a concrete request sequence. -/
theorem C9_witness :
    (reachable [Op.createUser (some [("name", JVal.jstr "Carol")]),
      Op.deleteUser 1]).users.Pairwise (fun a b => a.id ≠ b.id) ∧
    (reachable [Op.createUser (some [("name", JVal.jstr "Carol")]),
      Op.deleteUser 1]).tasks.Pairwise (fun a b => a.id ≠ b.id) :=
  C9_reachable_ids_distinct [Op.createUser (some [("name", JVal.jstr "Carol")]),
    Op.deleteUser 1]

/-- Claim C4: DELETE /users/{id} always returns 204 with empty body, whether or
not a matching User exists, and deleting the same id twice yields 204 both
times with the second call leaving the User Store unchanged. -/
theorem C4_delete_user_idempotent (user_id : Int) (users : List User) :
    (delete_user user_id users).1 = 204 ∧
    (delete_user user_id (delete_user user_id users).2).1 = 204 ∧
    (delete_user user_id (delete_user user_id users).2).2 =
      (delete_user user_id users).2 := by
  refine ⟨rfl, rfl, ?_⟩
  simp [delete_user, List.filter_filter]

/-- Instance of C4 at id 1 on the seed store. -/
theorem C4_witness :
    (delete_user 1 seedUsers).1 = 204 ∧
    (delete_user 1 (delete_user 1 seedUsers).2).1 = 204 ∧
    (delete_user 1 (delete_user 1 seedUsers).2).2 = (delete_user 1 seedUsers).2 :=
  C4_delete_user_idempotent 1 seedUsers

/-- Claim C5: DELETE /tasks/{id} returns 404 when no Task with the given id
exists, leaving the Task Store unchanged, and otherwise removes exactly the
Tasks with that id and returns 204 — unlike User deletion, which never fails. -/
theorem C5_delete_task_behaviour (task_id : Int) (tasks : List Task) :
    ((∀ t ∈ tasks, t.id ≠ task_id) → delete_task task_id tasks = (404, tasks)) ∧
    ((∃ t ∈ tasks, t.id = task_id) →
      (delete_task task_id tasks).1 = 204 ∧
      (delete_task task_id tasks).2 = tasks.filter (fun t => t.id != task_id)) := by
  constructor
  · intro hnone
    have hf : tasks.find? (fun t => t.id == task_id) = none := by
      rw [List.find?_eq_none]
      intro t ht
      simpa using hnone t ht
    simp [delete_task, hf]
  · rintro ⟨t, ht, hid⟩
    have hsome : (tasks.find? (fun x => x.id == task_id)).isSome := by
      rw [List.find?_isSome]
      exact ⟨t, ht, by simp [hid]⟩
    rcases hfind : tasks.find? (fun x => x.id == task_id) with _ | t0
    · simp [hfind] at hsome
    · exact ⟨by simp [delete_task, hfind], by simp [delete_task, hfind]⟩

/-- Instance of C5: id 9 is absent (404, store kept), id 1 is present
(204, tasks with id 1 removed). -/
theorem C5_witness :
    delete_task 9 seedTasks = (404, seedTasks) ∧
    ((delete_task 1 seedTasks).1 = 204 ∧
      (delete_task 1 seedTasks).2 = seedTasks.filter (fun t => t.id != 1)) :=
  ⟨(C5_delete_task_behaviour 9 seedTasks).1 (by decide),
   (C5_delete_task_behaviour 1 seedTasks).2 (by decide)⟩

/-- Claim C10: on an existing record, PUT /users/{id} and PUT /tasks/{id}
reject a body that is the empty JSON object with a 400 response — the same
branch as a missing/non-JSON body — so an all-fields-omitted partial update is
an error, not a 200 no-op. -/
theorem C10_empty_object_update_rejected (user_id task_id : Int)
    (users : List User) (tasks : List Task)
    (hu : (users.find? (fun u => u.id == user_id)).isSome = true)
    (ht : (tasks.find? (fun t => t.id == task_id)).isSome = true) :
    update_user user_id (some []) users = (400, users, none) ∧
    update_user user_id none users = (400, users, none) ∧
    update_task task_id (some []) users tasks = (400, tasks, none) ∧
    update_task task_id none users tasks = (400, tasks, none) := by
  rcases hfu : users.find? (fun u => u.id == user_id) with _ | u
  · simp [hfu] at hu
  · rcases hft : tasks.find? (fun t => t.id == task_id) with _ | t
    · simp [hft] at ht
    · refine ⟨?_, ?_, ?_, ?_⟩ <;>
        simp [update_user, update_task, hfu, hft, bodyTruthy]

/-- Instance of C10 on the seed stores at ids 1/1. -/
theorem C10_witness :
    update_user 1 (some []) seedUsers = (400, seedUsers, none) ∧
    update_user 1 none seedUsers = (400, seedUsers, none) ∧
    update_task 1 (some []) seedUsers seedTasks = (400, seedTasks, none) ∧
    update_task 1 none seedUsers seedTasks = (400, seedTasks, none) :=
  C10_empty_object_update_rejected 1 1 seedUsers seedTasks (by rfl) (by rfl)

/-- Claim C1 as stated is false: create a third User (id 3 is assigned), delete
it, and create again — the new User gets id 3 once more, which is not strictly
greater than the previously assigned id 3. -/
theorem C1_counterexample :
    3 ∈ assignedUserIds [Op.createUser (some [("name", JVal.jstr "X")]),
      Op.deleteUser 3] ∧
    (create_user (some [("name", JVal.jstr "Y")])
      (reachable [Op.createUser (some [("name", JVal.jstr "X")]),
        Op.deleteUser 3]).users).1 = 201 ∧
    (create_user (some [("name", JVal.jstr "Y")])
      (reachable [Op.createUser (some [("name", JVal.jstr "X")]),
        Op.deleteUser 3]).users).2.2 =
      some { id := 3, name := JVal.jstr "Y", age := JVal.jint 0 } := by
  refine ⟨?_, rfl, rfl⟩
  have h : assignedUserIds [Op.createUser (some [("name", JVal.jstr "X")]),
      Op.deleteUser 3] = [3] := rfl
  rw [h]
  exact List.mem_singleton_self 3

/-- Claim C1 (amended): in every reachable state, a successful POST /users
returns 201 and a User whose id is the last stored id + 1 (1 if the store is
empty), strictly greater than every id currently in the User Store; ids of
previously deleted Users may be reused. -/
theorem C1_create_user_id_exceeds_store (ops : List Op) (body : Option JObj) (u : User)
    (h : (create_user body (reachable ops).users).2.2 = some u) :
    (create_user body (reachable ops).users).1 = 201 ∧
    u.id = nextUserId (reachable ops).users ∧
    ((reachable ops).users.all (fun v => v.id < u.id)) = true := by
  have hinv := (inv_reachable ops).1
  rcases body with _ | j
  · simp [create_user] at h
  · by_cases hc : (j.isEmpty || !(hasKey j "name")) = true
    · simp [create_user, hc] at h
    · simp only [create_user, if_neg hc] at h ⊢
      simp only [Option.some.injEq] at h
      subst h
      refine ⟨by trivial, by trivial, ?_⟩
      rw [List.all_eq_true]
      intro v hv
      rw [decide_eq_true_eq]
      show v.id < nextUserId (reachable ops).users
      rw [nextUserId_eq_nextIdKey]
      exact key_lt_nextIdKey User.id _ hinv v hv

/-- Instance of the amended C1 on the seed state. -/
theorem C1_witness :
    (create_user (some [("name", JVal.jstr "Carol")]) (reachable []).users).1 = 201 ∧
    ({ id := 3, name := JVal.jstr "Carol", age := JVal.jint 0 } : User).id =
      nextUserId (reachable []).users ∧
    ((reachable []).users.all
      (fun v => v.id <
        ({ id := 3, name := JVal.jstr "Carol", age := JVal.jint 0 } : User).id)) = true :=
  C1_create_user_id_exceeds_store [] (some [("name", JVal.jstr "Carol")])
    { id := 3, name := JVal.jstr "Carol", age := JVal.jint 0 } rfl

/-- Claim C2 as stated is false: a payload carrying an empty-string name is
accepted — create_user returns 201 and appends a User with name "". -/
theorem C2_counterexample :
    (create_user (some [("name", JVal.jstr "")]) seedUsers).1 = 201 ∧
    (create_user (some [("name", JVal.jstr "")]) seedUsers).2.1 =
      seedUsers ++ [{ id := 3, name := JVal.jstr "", age := JVal.jint 0 }] :=
  ⟨rfl, rfl⟩

/-- Claim C2 (amended): POST /users fails with 400, adding no User, exactly
when the body is missing/falsy (non-JSON or the empty object) or the name key
is absent; a present but empty-string name passes validation. -/
theorem C2_create_user_validation (body : Option JObj) (users : List User) :
    ((create_user body users).1 = 400 ∧ (create_user body users).2.1 = users) ↔
      (bodyTruthy body = false ∨ hasKey (body.getD []) "name" = false) := by
  rcases body with _ | j
  · simp [create_user, bodyTruthy]
  · by_cases hc : (j.isEmpty || !(hasKey j "name")) = true
    · simp only [create_user, if_pos hc]
      constructor
      · intro _
        rcases (Bool.or_eq_true _ _).mp hc with h1 | h2
        · exact Or.inl (by simp [bodyTruthy, h1])
        · exact Or.inr (by simpa using h2)
      · intro _
        exact ⟨by trivial, by trivial⟩
    · simp only [create_user, if_neg hc]
      constructor
      · intro hl
        exact absurd hl.1 (by decide)
      · intro hr
        exfalso
        apply hc
        rcases hr with h1 | h2
        · have hje : j.isEmpty = true := by simpa [bodyTruthy] using h1
          simp [hje]
        · have hjk : hasKey j "name" = false := h2
          simp [hjk]

/-- Instance of the amended C2: a body with no name key is rejected and the
store is unchanged. -/
theorem C2_witness :
    ((create_user (some [("age", JVal.jint 7)]) seedUsers).1 = 400 ∧
      (create_user (some [("age", JVal.jint 7)]) seedUsers).2.1 = seedUsers) :=
  (C2_create_user_validation (some [("age", JVal.jint 7)]) seedUsers).mpr
    (Or.inr (by rfl))

/-- Claim C3: every POST /tasks whose payload carries a user_id matching no
stored User yields 400 and leaves the Task Store unchanged. -/
theorem C3_create_task_invalid_user (body : JObj) (users : List User) (tasks : List Task)
    (v : JVal) (hv : getKey body "user_id" = some v)
    (hex : user_exists users v = false) :
    (create_task (some body) users tasks).1 = 400 ∧
    (create_task (some body) users tasks).2.1 = tasks := by
  simp only [create_task]
  by_cases he : body.isEmpty = true
  · rw [if_pos he]; exact ⟨rfl, rfl⟩
  · rw [if_neg he]
    by_cases htl : (!(hasKey body "title")) = true
    · rw [if_pos htl]; exact ⟨rfl, rfl⟩
    · rw [if_neg htl]
      have hk : ¬ (!(hasKey body "user_id")) = true := by
        simp [hasKey, hv]
      rw [if_neg hk, hv]
      rw [if_pos]
      · exact ⟨rfl, rfl⟩
      · simp [hex]

/-- Instance of C3: creating a task for the nonexistent user 99 fails with 400
and leaves the seed Task Store unchanged. -/
theorem C3_witness :
    (create_task (some [("title", JVal.jstr "T"), ("user_id", JVal.jint 99)])
      seedUsers seedTasks).1 = 400 ∧
    (create_task (some [("title", JVal.jstr "T"), ("user_id", JVal.jint 99)])
      seedUsers seedTasks).2.1 = seedTasks :=
  C3_create_task_invalid_user [("title", JVal.jstr "T"), ("user_id", JVal.jint 99)]
    seedUsers seedTasks (JVal.jint 99) rfl rfl

/-- If `find?` returns an element, the list splits into a matchless prefix,
that element, and a suffix, and `replaceFirst` rewrites exactly that element. -/
lemma replaceFirst_split {α : Type} (p : α → Bool) (f : α → α) :
    ∀ (l : List α) (a : α), l.find? p = some a →
      ∃ l1 l2, l = l1 ++ a :: l2 ∧ (∀ x ∈ l1, p x = false) ∧
        replaceFirst p f l = l1 ++ f a :: l2 := by
  intro l
  induction l with
  | nil => intro a ha; cases ha
  | cons x xs ih =>
    intro a ha
    cases hpx : p x with
    | true =>
      rw [List.find?_cons_of_pos _ hpx] at ha
      obtain rfl : x = a := by injection ha
      refine ⟨[], xs, rfl, ?_, ?_⟩
      · intro y hy; cases hy
      · simp [replaceFirst, hpx]
    | false =>
      rw [List.find?_cons_of_neg _ (by simp [hpx])] at ha
      obtain ⟨l1, l2, he, hl1, hr⟩ := ih a ha
      refine ⟨x :: l1, l2, by rw [he]; rfl, ?_, ?_⟩
      · intro y hy
        rcases List.mem_cons.mp hy with rfl | hy2
        · exact hpx
        · exact hl1 y hy2
      · simp [replaceFirst, hpx, hr]

/-- Claim C6: for every existing User, PUT /users/{id} with body
given as the single field age = 40 returns 200 with age set to 40, name and id
unchanged, and the store rewritten only at the first matching User: it splits
around that record and every other record is untouched. -/
theorem C6_update_user_partial_age (user_id : Int) (users : List User) (u : User)
    (hfind : users.find? (fun v => v.id == user_id) = some u) :
    (update_user user_id (some [("age", JVal.jint 40)]) users).1 = 200 ∧
    (update_user user_id (some [("age", JVal.jint 40)]) users).2.2 =
      some { id := u.id, name := u.name, age := JVal.jint 40 } ∧
    ∃ l1 l2, users = l1 ++ u :: l2 ∧ (∀ x ∈ l1, (x.id == user_id) = false) ∧
      (update_user user_id (some [("age", JVal.jint 40)]) users).2.1 =
        l1 ++ { id := u.id, name := u.name, age := JVal.jint 40 } :: l2 := by
  obtain ⟨l1, l2, he, hl1, hr⟩ :=
    replaceFirst_split (fun v => v.id == user_id)
      (applyUserUpdate [("age", JVal.jint 40)]) users u hfind
  have happ : applyUserUpdate [("age", JVal.jint 40)] u =
      { id := u.id, name := u.name, age := JVal.jint 40 } := rfl
  refine ⟨?_, ?_, l1, l2, he, hl1, ?_⟩
  · simp [update_user, hfind, bodyTruthy]
  · simp [update_user, hfind, bodyTruthy, happ]
  · simp [update_user, hfind, bodyTruthy, hr, happ]

/-- Instance of C6 on the seed store: only Alice's age changes. -/
theorem C6_witness :
    (update_user 1 (some [("age", JVal.jint 40)]) seedUsers).1 = 200 ∧
    (update_user 1 (some [("age", JVal.jint 40)]) seedUsers).2.2 =
      some { id := (1 : Int), name := JVal.jstr "Alice", age := JVal.jint 40 } :=
  ⟨(C6_update_user_partial_age 1 seedUsers
      { id := 1, name := JVal.jstr "Alice", age := JVal.jint 25 } rfl).1,
   (C6_update_user_partial_age 1 seedUsers
      { id := 1, name := JVal.jstr "Alice", age := JVal.jint 25 } rfl).2.1⟩

/-- Claim C7: GET /users/{id}/tasks returns 404 whenever no User with the id
exists — regardless of Tasks referencing it — and otherwise 200 with exactly
the Tasks whose user_id equals the id, in store order (a sublist). -/
theorem C7_get_user_tasks_behaviour (user_id : Int) (users : List User)
    (tasks : List Task) :
    (user_exists users (JVal.jint user_id) = false →
      get_user_tasks user_id users tasks = (404, none)) ∧
    (user_exists users (JVal.jint user_id) = true →
      get_user_tasks user_id users tasks =
        (200, some (tasks.filter (fun t => pyEqIntJ user_id t.user_id))) ∧
      (tasks.filter (fun t => pyEqIntJ user_id t.user_id)).Sublist tasks ∧
      ∀ t, t ∈ tasks.filter (fun t => pyEqIntJ user_id t.user_id) ↔
        t ∈ tasks ∧ pyEqIntJ user_id t.user_id = true) := by
  constructor
  · intro hne
    simp [get_user_tasks, hne]
  · intro hex
    refine ⟨by simp [get_user_tasks, hex], List.filter_sublist tasks, ?_⟩
    intro t
    simp [List.mem_filter]

/-- Instance of C7: user 99 is absent, so 404 even with an orphan Task
referencing 99; user 1 exists, so 200 with the filtered Tasks. -/
theorem C7_witness :
    get_user_tasks 99 seedUsers (seedTasks ++
      [{ id := 3, title := JVal.jstr "Orphan", description := JVal.jstr "",
         user_id := JVal.jint 99, completed := JVal.jbool false }]) = (404, none) ∧
    get_user_tasks 1 seedUsers seedTasks =
      (200, some (seedTasks.filter (fun t => pyEqIntJ 1 t.user_id))) :=
  ⟨(C7_get_user_tasks_behaviour 99 seedUsers (seedTasks ++
      [{ id := 3, title := JVal.jstr "Orphan", description := JVal.jstr "",
         user_id := JVal.jint 99, completed := JVal.jbool false }])).1 rfl,
   ((C7_get_user_tasks_behaviour 1 seedUsers seedTasks).2 rfl).1⟩

/-- Claim C8 as stated is false on the all-omitted payload: Task 1 exists and
the empty object omits user_id, yet update_task returns 400, not 200 with the
previous values retained. -/
theorem C8_counterexample :
    seedTasks.find? (fun t => t.id == 1) =
      some { id := 1, title := JVal.jstr "Learn REST",
             description := JVal.jstr "Study REST principles",
             user_id := JVal.jint 1, completed := JVal.jbool true } ∧
    getKey ([] : JObj) "user_id" = none ∧
    (update_task 1 (some []) seedUsers seedTasks).1 = 400 :=
  ⟨rfl, rfl, rfl⟩

/-- Claim C8 (amended): for every existing Task, PUT /tasks/{id} whose body
supplies a user_id failing the existence check returns 400 with the Task Store
unchanged; when the body is a non-empty object and the check passes (or
user_id is omitted), fields omitted from the payload keep their previous
values and the full updated Task is returned with 200 — the empty object is
instead rejected with 400. -/
theorem C8_update_task_reference_check (task_id : Int) (body : JObj)
    (users : List User) (tasks : List Task) (t : Task)
    (hfind : tasks.find? (fun x => x.id == task_id) = some t) :
    (∀ v, getKey body "user_id" = some v → user_exists users v = false →
      (update_task task_id (some body) users tasks).1 = 400 ∧
      (update_task task_id (some body) users tasks).2.1 = tasks) ∧
    (body.isEmpty = false →
      (getKey body "user_id" = none ∨
        (∃ v, getKey body "user_id" = some v ∧ user_exists users v = true)) →
      (update_task task_id (some body) users tasks).1 = 200 ∧
      (update_task task_id (some body) users tasks).2.2 =
        some (applyTaskUpdate body t) ∧
      (getKey body "title" = none → (applyTaskUpdate body t).title = t.title) ∧
      (getKey body "description" = none →
        (applyTaskUpdate body t).description = t.description) ∧
      (getKey body "completed" = none →
        (applyTaskUpdate body t).completed = t.completed) ∧
      (applyTaskUpdate body t).id = t.id) := by
  constructor
  · intro v hv hex
    have hbe : body.isEmpty = false := by
      cases body with
      | nil => simp [getKey] at hv
      | cons p ps => rfl
    have hcond : (hasKey body "user_id" &&
        !(user_exists users ((getKey body "user_id").getD (JVal.jint 0)))) = true := by
      simp [hasKey, hv, hex]
    constructor <;> simp [update_task, hfind, bodyTruthy, hbe, hcond]
  · intro hbe hok
    have hcond : (hasKey body "user_id" &&
        !(user_exists users ((getKey body "user_id").getD (JVal.jint 0)))) = false := by
      rcases hok with hnone | ⟨v, hv, hex⟩
      · simp [hasKey, hnone]
      · simp [hasKey, hv, hex]
    refine ⟨?_, ?_, ?_, ?_, ?_, rfl⟩
    · simp [update_task, hfind, bodyTruthy, hbe, hcond]
    · simp [update_task, hfind, bodyTruthy, hbe, hcond]
    · intro hn; simp [applyTaskUpdate, hn]
    · intro hn; simp [applyTaskUpdate, hn]
    · intro hn; simp [applyTaskUpdate, hn]

/-- Instance of the amended C8 on Task 1: a payload referencing the
nonexistent user 99 is rejected with the store unchanged, while a payload
updating only the completed flag succeeds. -/
theorem C8_witness :
    ((update_task 1 (some [("user_id", JVal.jint 99)]) seedUsers seedTasks).1 = 400 ∧
      (update_task 1 (some [("user_id", JVal.jint 99)]) seedUsers seedTasks).2.1 =
        seedTasks) ∧
    ((update_task 1 (some [("completed", JVal.jbool false)]) seedUsers seedTasks).1
        = 200 ∧
      (update_task 1 (some [("completed", JVal.jbool false)]) seedUsers seedTasks).2.2 =
        some (applyTaskUpdate [("completed", JVal.jbool false)]
          { id := 1, title := JVal.jstr "Learn REST",
            description := JVal.jstr "Study REST principles",
            user_id := JVal.jint 1, completed := JVal.jbool true })) :=
  ⟨(C8_update_task_reference_check 1 [("user_id", JVal.jint 99)] seedUsers seedTasks
      { id := 1, title := JVal.jstr "Learn REST",
        description := JVal.jstr "Study REST principles",
        user_id := JVal.jint 1, completed := JVal.jbool true } rfl).1
      (JVal.jint 99) rfl rfl,
   ⟨((C8_update_task_reference_check 1 [("completed", JVal.jbool false)] seedUsers
        seedTasks
        { id := 1, title := JVal.jstr "Learn REST",
          description := JVal.jstr "Study REST principles",
          user_id := JVal.jint 1, completed := JVal.jbool true } rfl).2
      rfl (Or.inl rfl)).1,
    ((C8_update_task_reference_check 1 [("completed", JVal.jbool false)] seedUsers
        seedTasks
        { id := 1, title := JVal.jstr "Learn REST",
          description := JVal.jstr "Study REST principles",
          user_id := JVal.jint 1, completed := JVal.jbool true } rfl).2
      rfl (Or.inl rfl)).2.1⟩⟩

end RestLab
